import Mathlib

/-!
Verification of `FinalSimpleKnockout/Scripts/myscripts.js`.

The file under `src/` has two parts:
* a demo view-model `BetterListModel` (fields `itemToAdd`, `allItems`,
  `selectedItems`, methods `addItem`, `removeSelected`, `sortItems`);
* the extension `ko.observableArray.fn.selectable`, which adds selection
  attributes (`selectedItem`/`selectedIndex` in single mode,
  `selectedItems`/`selectedIndexes` in multiple mode) and, with the
  `bindingTools` option, the methods `new`, `clone` and `delete`.

The embedding models JavaScript values by the inductive `Val`: strings are
compared by value under `===`, objects by identity (we give each object an
identity number; a brand-new object such as the `{}` allocated by `new`, or
the fresh copy produced by `ko.toJS` inside `clone`, gets the next unused
number from a `fresh` counter carried in the state).  Object *fields* are
not modelled: every claim under verification is about identity membership
(`indexOf`, `push`, `remove`, selection tracking), never about field
contents, so the `data.name += ' copy'` line of `clone` has no observable
effect here.

Knockout primitives are modelled by their documented semantics:
`ko.observableArray` holds a `List Val`; `arrayIndexOf` is
`ko.utils.arrayIndexOf` / `Array.prototype.indexOf` (index of the first
`===`-match, `-1` when absent); `remove(value)` removes every `===`-match;
`removeAll(values)` removes every item occurring in `values`; indexing
`this()[i]` yields `undefined` out of range.  A `ko.computed` is a plain
function object: unlike an `observableArray` it does not carry the array
methods (`remove`, `push`, ...), which matters for the multiple-mode
`delete`.
-/

/-- JavaScript values as far as `===` can tell them apart: `undefined`,
`null`, strings (compared by value) and objects (compared by identity,
represented by an identity number). -/
inductive Val where
  | vundef : Val
  | vnull : Val
  | str : String → Val
  | obj : Nat → Val
deriving DecidableEq, Repr

/-- JavaScript truthiness of a `Val`: `undefined` and `null` are falsy, the
empty string is falsy, every other string and every object is truthy. -/
def jsTruthy : Val → Bool
  | Val.vundef => false
  | Val.vnull => false
  | Val.str s => s ≠ ""
  | Val.obj _ => true

/-- `ko.utils.arrayIndexOf` / `Array.prototype.indexOf`: the index of the
first `===`-equal element, `-1` when there is none. -/
def arrayIndexOf {α : Type} [DecidableEq α] (l : List α) (v : α) : Int :=
  if v ∈ l then (l.indexOf v : Int) else -1

/-- JavaScript array indexing `a[i]`: the element when `0 ≤ i < a.length`,
`undefined` otherwise. -/
def getJS (l : List Val) (i : Int) : Val :=
  if i < 0 then Val.vundef else l.getD i.toNat Val.vundef

/-- `observableArray.remove(value)`: remove every `===`-match. -/
def koRemove (l : List Val) (v : Val) : List Val :=
  l.filter (fun x => decide (x ≠ v))

/-- `observableArray.removeAll(values)`: remove every element occurring in
`values`. -/
def koRemoveAll {α : Type} [DecidableEq α] (l : List α) (values : List α) : List α :=
  l.filter (fun x => decide (x ∉ values))

/-! ## Multiple-selection mode (`selectable('multiple', ...)`) -/

/-- State of an observableArray extended with `selectable('multiple', ...)`:
the underlying array contents, the backing `selectedItems` observableArray
(initially `[]`), and the fresh-object counter. -/
structure MultiState where
  items : List Val
  selItems : List Val
  fresh : Nat
deriving DecidableEq, Repr

/-- The loop body of the `selectedItems` write function: push `obj` when it
is not yet in the selection being built (`selectedItems().indexOf(obj) == -1`)
and is in the array (`this.indexOf(obj) >= 0`). -/
def selStep (items : List Val) (acc : List Val) (obj : Val) : List Val :=
  if arrayIndexOf acc obj = -1 ∧ 0 ≤ arrayIndexOf items obj then acc ++ [obj]
  else acc

/-- The `write` function of the `selectedItems` computed: reset the backing
array to `[]` (`selectedItems([])`), then run the `ko.utils.arrayForEach`
loop, whose body is `selStep`, over the written list. -/
def writeSelectedItems (st : MultiState) (written : List Val) : MultiState :=
  { st with selItems := written.foldl (selStep st.items) [] }

/-- The `read` function of the `selectedIndexes` computed: map each selected
item to `this.indexOf(obj)`. -/
def readSelectedIndexes (st : MultiState) : List Int :=
  st.selItems.map (fun obj => arrayIndexOf st.items obj)

/-- The `write` function of the `selectedIndexes` computed: map each index
to `this()[i]` and write the resulting list to `selectedItems`. -/
def writeSelectedIndexes (st : MultiState) (indexes : List Int) : MultiState :=
  writeSelectedItems st (indexes.map (fun i => getJS st.items i))

/-! ## Single-selection mode (`selectable(...)` without `'multiple'`) -/

/-- State of an observableArray extended with `selectable(...)` in single
mode: the array contents, the backing `selected` observable (initially
`null`), and the fresh-object counter. -/
structure SingleState where
  items : List Val
  selected : Val
  fresh : Nat
deriving DecidableEq, Repr

/-- The `write` function of the `selectedItem` computed: select the object
when it is in the array (`this.indexOf(object) >= 0`), otherwise set the
selection to `null`. -/
def writeSelectedItem (st : SingleState) (object : Val) : SingleState :=
  if arrayIndexOf st.items object < 0 then
    { st with selected := Val.vnull }
  else
    { st with selected := object }

/-- The `read` function of the `selectedIndex` computed:
`this.indexOf(selected())`. -/
def readSelectedIndex (st : SingleState) : Int :=
  arrayIndexOf st.items st.selected

/-- The `write` function of the `selectedIndex` computed:
`this.selectedItem(this()[index])`. -/
def writeSelectedIndex (st : SingleState) (index : Int) : SingleState :=
  writeSelectedItem st (getJS st.items index)

/-! ## The `bindingTools` methods

All claims about `new` and `clone` restrict to a selectable array with no
user-supplied `create` method, so the embedding takes the `else` branch of
`if (this.create)`.  All claims about `clone` restrict to a plain
(non-`__ko_mapping__`) argument, so `data = ko.toJS(object)` — a fresh copy,
hence a brand-new object identity — and `created = data`. -/

/-- Single-mode `this.new()`: allocate a brand-new `{}`, push it, select it
via `this.selectedItem(created)`.  The JavaScript function deliberately
ignores its arguments; the `args` parameter mirrors that. -/
def newSingle (st : SingleState) (args : List Val) : SingleState :=
  let _ := args
  let created := Val.obj st.fresh
  let st1 : SingleState :=
    { st with items := st.items ++ [created], fresh := st.fresh + 1 }
  writeSelectedItem st1 created

/-- Multiple-mode `this.new()`: allocate a brand-new `{}`, push it, select
it via `this.selectedItems([created])`.  Arguments are ignored. -/
def newMulti (st : MultiState) (args : List Val) : MultiState :=
  let _ := args
  let created := Val.obj st.fresh
  let st1 : MultiState :=
    { st with items := st.items ++ [created], fresh := st.fresh + 1 }
  writeSelectedItems st1 [created]

/-- The inner `clone` helper applied to a plain (non-mapped) object with no
user `create` method: `data = ko.toJS(object)` is a fresh copy (a brand-new
object identity), it is pushed onto the array and returned.  The argument
only determines the copied field contents, which identity-based selection
never observes. -/
def cloneHelper (st : SingleState) (object : Val) : Val × SingleState :=
  let _ := object
  let created := Val.obj st.fresh
  (created, { st with items := st.items ++ [created], fresh := st.fresh + 1 })

/-- The same inner `clone` helper for a multiple-mode array. -/
def cloneHelperM (st : MultiState) (object : Val) : Val × MultiState :=
  let _ := object
  let created := Val.obj st.fresh
  (created, { st with items := st.items ++ [created], fresh := st.fresh + 1 })

/-- Single-mode `this.clone(object)` with a truthy plain object:
`this.selectedItem(clone(object || this.selectedItem()))`. -/
def cloneSingle (st : SingleState) (object : Val) : SingleState :=
  let target := if jsTruthy object then object else st.selected
  let r := cloneHelper st target
  writeSelectedItem r.2 r.1

/-- Multiple-mode `this.clone(object)` on plain objects: with a truthy
argument, `this.selectedItems([clone(object)])`; with a falsy one,
`this.selectedItems(ko.utils.arrayMap(this.selectedItems(), clone))`, which
runs the pushing `clone` helper over each selected item left to right and
then selects the list of fresh copies. -/
def cloneMulti (st : MultiState) (object : Val) : MultiState :=
  if jsTruthy object then
    let r := cloneHelperM st object
    writeSelectedItems r.2 [r.1]
  else
    let r :=
      st.selItems.foldl
        (fun p obj =>
          let q := cloneHelperM p.2 obj
          (p.1 ++ [q.1], q.2))
        ([], st)
    writeSelectedItems r.2 r.1

/-- Single-mode `this.delete(object)`: remove `object || this.selectedItem()`
from the array, then deselect only when `this.selectedItem() === object` —
comparing the (possibly undefined) parameter, not the removed item. -/
def deleteSingle (st : SingleState) (object : Val) : SingleState :=
  let target := if jsTruthy object then object else st.selected
  let st1 : SingleState := { st with items := koRemove st.items target }
  if st1.selected = object then writeSelectedItem st1 Val.vnull else st1

/-- Outcome of the multiple-mode `delete`: either a new state, or a thrown
`TypeError` together with the state at the throw point. -/
inductive MultiDeleteResult where
  | ok : MultiState → MultiDeleteResult
  | typeError : MultiState → MultiDeleteResult
deriving DecidableEq, Repr

/-- Multiple-mode `this.delete(object)`.  With no (or a falsy) argument:
`this.removeAll(this.selectedItems()); this.selectedItems([])`.  With a
truthy argument: `this.remove(object)` mutates the array, and then
`this.selectedItems.remove(object)` throws — `this.selectedItems` is the
`ko.computed` defined above, and Knockout computeds, unlike
observableArrays, carry no `remove` method, so the call is a `TypeError`
on `undefined`. -/
def deleteMulti (st : MultiState) (object : Val) : MultiDeleteResult :=
  if jsTruthy object then
    MultiDeleteResult.typeError { st with items := koRemove st.items object }
  else
    MultiDeleteResult.ok
      { st with items := koRemoveAll st.items st.selItems, selItems := [] }

/-! ## Option parsing and the attribute surface of `selectable` -/

/-- The options object built at the top of `selectable`:
`options[opt] = true` for every argument, read back as a truthiness test. -/
def buildOptions (args : List String) : String → Bool :=
  args.foldl (fun opts opt => fun key => if key = opt then true else opts key)
    (fun _ => false)

/-- Which attributes and methods `selectable` defines on the array. -/
structure Iface where
  hasSelectedItems : Bool
  hasSelectedIndexes : Bool
  hasSelectedItem : Bool
  hasSelectedIndex : Bool
  hasNew : Bool
  hasClone : Bool
  hasDelete : Bool
deriving DecidableEq, Repr

/-- Result of running `selectable` on an array: the array itself (returned
by `return this`, its contents untouched by the setup code) and the
attribute surface that was defined on it. -/
structure SelectableResult where
  underlying : List Val
  iface : Iface
deriving DecidableEq, Repr

/-- `ko.observableArray.fn.selectable` as attribute-surface setup: branch on
`options.multiple` to define `selectedItems`/`selectedIndexes` or
`selectedItem`/`selectedIndex`, define `new`/`clone`/`delete` when
`options.bindingTools`, and return `this`. -/
def selectableSetup (args : List String) (arr : List Val) : SelectableResult :=
  let options := buildOptions args
  { underlying := arr
    iface :=
      { hasSelectedItems := options "multiple"
        hasSelectedIndexes := options "multiple"
        hasSelectedItem := !options "multiple"
        hasSelectedIndex := !options "multiple"
        hasNew := options "bindingTools"
        hasClone := options "bindingTools"
        hasDelete := options "bindingTools" } }

/-! ## The `BetterListModel` demo view-model -/

/-- The demo view-model: an `itemToAdd` observable, the `allItems`
observableArray and the `selectedItems` observableArray (here plain
observableArrays of strings, not the `selectable` extension). -/
structure BetterListModel where
  itemToAdd : String
  allItems : List String
  selectedItems : List String
deriving DecidableEq, Repr

/-- The initial `BetterListModel` state built by the constructor. -/
def initialModel : BetterListModel :=
  { itemToAdd := ""
    allItems := ["Fries", "Eggs Benedict", "Ham", "Cheese"]
    selectedItems := ["Ham"] }

/-- `addItem`: push `itemToAdd()` when it is neither blank nor already in
`allItems`, then clear the text box. -/
def addItem (m : BetterListModel) : BetterListModel :=
  let m1 :=
    if m.itemToAdd ≠ "" ∧ arrayIndexOf m.allItems m.itemToAdd < 0 then
      { m with allItems := m.allItems ++ [m.itemToAdd] }
    else m
  { m1 with itemToAdd := "" }

/-- `removeSelected`: `this.allItems.removeAll(this.selectedItems())`, then
clear the selection. -/
def removeSelected (m : BetterListModel) : BetterListModel :=
  { m with allItems := koRemoveAll m.allItems m.selectedItems
           selectedItems := [] }

/-! ## Auxiliary predicates and spec-side descriptions -/

/-- The `fresh` counter of a single-mode state is really fresh: every object
identity in the array is below it.  This holds for every state reachable
from a plain array of non-object values and is what makes `Val.obj st.fresh`
a brand-new object. -/
def freshOkS (st : SingleState) : Bool :=
  st.items.all (fun v =>
    match v with
    | Val.obj n => decide (n < st.fresh)
    | _ => true)

/-- Freshness of the counter of a multiple-mode state. -/
def freshOkM (st : MultiState) : Bool :=
  st.items.all (fun v =>
    match v with
    | Val.obj n => decide (n < st.fresh)
    | _ => true)

/-- One step of first-occurrence deduplication: keep `x` only when it has
not been seen yet. -/
def dedupStep (acc : List Val) (x : Val) : List Val :=
  if x ∈ acc then acc else acc ++ [x]

/-- Spec-side description used to compare against `writeSelectedItems`:
keep each element at most once (duplicates dropped), in first-occurrence
order. -/
def dedupKeepFirst (l : List Val) : List Val :=
  l.foldl dedupStep []

/-! ## Bridge lemmas about the JavaScript list helpers -/

theorem arrayIndexOf_nonneg_iff {α : Type} [DecidableEq α] (l : List α) (v : α) :
    0 ≤ arrayIndexOf l v ↔ v ∈ l := by
  unfold arrayIndexOf
  by_cases h : v ∈ l <;> simp [h, Int.natCast_nonneg]

theorem arrayIndexOf_neg_iff {α : Type} [DecidableEq α] (l : List α) (v : α) :
    arrayIndexOf l v < 0 ↔ v ∉ l := by
  rw [← not_le, not_iff_not]
  exact arrayIndexOf_nonneg_iff l v

theorem arrayIndexOf_eq_neg_one_iff {α : Type} [DecidableEq α] (l : List α) (v : α) :
    arrayIndexOf l v = -1 ↔ v ∉ l := by
  unfold arrayIndexOf
  by_cases h : v ∈ l <;> simp [h]

theorem selStep_of_mem (items acc : List Val) (x : Val)
    (hacc : x ∉ acc) (hmem : x ∈ items) :
    selStep items acc x = acc ++ [x] := by
  unfold selStep
  rw [if_pos]
  exact ⟨(arrayIndexOf_eq_neg_one_iff _ _).mpr hacc,
    (arrayIndexOf_nonneg_iff _ _).mpr hmem⟩

theorem selStep_eq_dedupStep (items acc : List Val) (x : Val) (hmem : x ∈ items) :
    selStep items acc x = dedupStep acc x := by
  unfold selStep dedupStep
  by_cases hacc : x ∈ acc
  · rw [if_neg, if_pos hacc]
    simp [arrayIndexOf_eq_neg_one_iff, hacc]
  · rw [if_pos, if_neg hacc]
    exact ⟨(arrayIndexOf_eq_neg_one_iff _ _).mpr hacc,
      (arrayIndexOf_nonneg_iff _ _).mpr hmem⟩

theorem selStep_of_not_mem (items acc : List Val) (x : Val) (hmem : x ∉ items) :
    selStep items acc x = acc := by
  unfold selStep
  rw [if_neg]
  intro hc
  exact hmem ((arrayIndexOf_nonneg_iff _ _).mp hc.2)

theorem selStep_foldl_filter (items : List Val) (written : List Val) :
    ∀ acc : List Val,
      written.foldl (selStep items) acc
        = (written.filter (fun x => decide (x ∈ items))).foldl dedupStep acc := by
  induction written with
  | nil => intro acc; rfl
  | cons x xs ih =>
    intro acc
    by_cases hx : x ∈ items
    · rw [List.foldl_cons, selStep_eq_dedupStep items acc x hx, ih,
        List.filter_cons_of_pos (by simpa using hx), List.foldl_cons]
    · rw [List.foldl_cons, selStep_of_not_mem items acc x hx, ih,
        List.filter_cons_of_neg (by simpa using hx)]

theorem selStep_foldl_append (items : List Val) (written : List Val) :
    ∀ acc : List Val, written.Nodup → (∀ x ∈ written, x ∈ items) →
      (∀ x ∈ written, x ∉ acc) →
      written.foldl (selStep items) acc = acc ++ written := by
  induction written with
  | nil => intro acc _ _ _; simp
  | cons x xs ih =>
    intro acc hnd hmem hdisj
    rw [List.foldl_cons, selStep_of_mem items acc x (hdisj x (by simp))
      (hmem x (by simp))]
    rw [ih (acc ++ [x]) hnd.of_cons (fun y hy => hmem y (by simp [hy])) ?_]
    · simp
    · intro y hy
      simp only [List.mem_append, List.mem_singleton]
      rintro (hya | rfl)
      · exact hdisj y (by simp [hy]) hya
      · exact (List.nodup_cons.mp hnd).1 hy

theorem writeSelectedItems_items (st : MultiState) (written : List Val) :
    (writeSelectedItems st written).items = st.items := rfl

theorem writeSelectedItems_eq_self (st : MultiState) (written : List Val)
    (hnd : written.Nodup) (hmem : ∀ x ∈ written, x ∈ st.items) :
    (writeSelectedItems st written).selItems = written := by
  show written.foldl (selStep st.items) [] = written
  rw [selStep_foldl_append st.items written [] hnd hmem (by simp)]
  simp

theorem writeSelectedItem_of_mem (st : SingleState) (v : Val) (h : v ∈ st.items) :
    (writeSelectedItem st v).selected = v ∧ (writeSelectedItem st v).items = st.items := by
  unfold writeSelectedItem
  rw [if_neg]
  · exact ⟨rfl, rfl⟩
  · exact fun hc => ((arrayIndexOf_neg_iff _ _).mp hc) h

theorem optionsFoldl_eq (args : List String) (key : String) :
    ∀ f : String → Bool,
      args.foldl (fun opts opt => fun k => if k = opt then true else opts k) f key
        = (f key || decide (key ∈ args)) := by
  induction args with
  | nil => intro f; simp
  | cons a as ih =>
    intro f
    rw [List.foldl_cons, ih]
    by_cases h : key = a <;> simp [h]

/-! ## Claim theorems -/

/-- C1: the claimed invariant "every selected item is an element of the
underlying array after any sequence of the extension's operations" fails on
the code.  Starting from a fresh single-mode selectable array `['a']`,
selecting `'a'` and then calling `delete` with no argument removes `'a'`
from the array but leaves it selected: the selection is non-null and not an
element of the (now empty) array. -/
theorem selection_subset_invariant_violated :
    (deleteSingle (writeSelectedItem ⟨[Val.str "a"], Val.vnull, 0⟩ (Val.str "a"))
        Val.vundef).selected ∉
      (deleteSingle (writeSelectedItem ⟨[Val.str "a"], Val.vnull, 0⟩ (Val.str "a"))
        Val.vundef).items ∧
    (deleteSingle (writeSelectedItem ⟨[Val.str "a"], Val.vnull, 0⟩ (Val.str "a"))
        Val.vundef).selected ≠ Val.vnull := by
  decide

/-- C2: the claim "delete with no argument removes the selected item and
deselects it, so selectedItem() is null afterwards" fails on the code.  On
the single-mode array `['a']` with `'a'` selected, `delete()` removes `'a'`
from the array, but the guard compares `this.selectedItem()` with the
undefined parameter instead of the removed item, so the selection stays
`'a'` rather than becoming null. -/
theorem deleteSingle_no_arg_keeps_selection :
    (deleteSingle (writeSelectedItem ⟨[Val.str "a"], Val.vnull, 0⟩ (Val.str "a"))
        Val.vundef).items = [] ∧
    (deleteSingle (writeSelectedItem ⟨[Val.str "a"], Val.vnull, 0⟩ (Val.str "a"))
        Val.vundef).selected = Val.str "a" := by
  decide

/-- C3: the claim "delete with an object removes that object from both the
array and the selection" fails on the code.  On the multiple-mode array
`['a','b']` with `['a']` selected, `delete('a')` removes `'a'` from the
array and then throws a TypeError — `this.selectedItems` is a `ko.computed`
and has no `remove` method — leaving the selection still `['a']`. -/
theorem deleteMulti_object_throws :
    deleteMulti (writeSelectedItems ⟨[Val.str "a", Val.str "b"], [], 0⟩ [Val.str "a"])
        (Val.str "a")
      = MultiDeleteResult.typeError ⟨[Val.str "b"], [Val.str "a"], 0⟩ := by
  decide

/-- C4: for a selectable array with bindingTools and no user `create`
method, `clone` with a truthy plain object appends a fresh clone to the
array and selects it: in single mode the clone becomes the selected item,
in multiple mode (with an explicit argument) the sole selected item. -/
theorem clone_appends_and_selects (stS : SingleState) (stM : MultiState)
    (objS objM : Val) (hS : jsTruthy objS = true) (hM : jsTruthy objM = true) :
    ((cloneSingle stS objS).items = stS.items ++ [Val.obj stS.fresh] ∧
      (cloneSingle stS objS).selected = Val.obj stS.fresh) ∧
    ((cloneMulti stM objM).items = stM.items ++ [Val.obj stM.fresh] ∧
      (cloneMulti stM objM).selItems = [Val.obj stM.fresh]) := by
  constructor
  · have hmem : Val.obj stS.fresh ∈ stS.items ++ [Val.obj stS.fresh] := by simp
    unfold cloneSingle cloneHelper
    simp only [hS, if_true]
    exact ⟨(writeSelectedItem_of_mem _ _ hmem).2, (writeSelectedItem_of_mem _ _ hmem).1⟩
  · have hmem : ∀ x ∈ [Val.obj stM.fresh], x ∈ stM.items ++ [Val.obj stM.fresh] := by
      simp
    unfold cloneMulti cloneHelperM
    simp only [hM, if_true]
    exact ⟨writeSelectedItems_items _ _,
      writeSelectedItems_eq_self _ _ (by simp) hmem⟩

/-- C4 witness: `clone_appends_and_selects` applied to the single-mode array
`['x']` at fresh counter 3 and the multiple-mode array `['y']` at fresh
counter 7, cloning the plain objects `obj 0` and `obj 1`. -/
theorem clone_appends_and_selects_witness :
    ((cloneSingle ⟨[Val.str "x"], Val.vnull, 3⟩ (Val.obj 0)).items
        = [Val.str "x"] ++ [Val.obj 3] ∧
      (cloneSingle ⟨[Val.str "x"], Val.vnull, 3⟩ (Val.obj 0)).selected = Val.obj 3) ∧
    ((cloneMulti ⟨[Val.str "y"], [], 7⟩ (Val.obj 1)).items
        = [Val.str "y"] ++ [Val.obj 7] ∧
      (cloneMulti ⟨[Val.str "y"], [], 7⟩ (Val.obj 1)).selItems = [Val.obj 7]) :=
  clone_appends_and_selects _ _ _ _ (by decide) (by decide)

/-- C5: for a selectable array with bindingTools and no user `create`
method, `new` (its arguments ignored) appends one brand-new empty object to
the array — leaving the prior contents unchanged — and selects exactly that
object: it becomes the selected item in single mode and the sole selected
item in multiple mode. -/
theorem new_appends_fresh_and_selects (stS : SingleState) (stM : MultiState)
    (argsS argsM : List Val) (hS : freshOkS stS = true) (hM : freshOkM stM = true) :
    ((newSingle stS argsS).items = stS.items ++ [Val.obj stS.fresh] ∧
      Val.obj stS.fresh ∉ stS.items ∧
      (newSingle stS argsS).selected = Val.obj stS.fresh ∧
      newSingle stS argsS = newSingle stS []) ∧
    ((newMulti stM argsM).items = stM.items ++ [Val.obj stM.fresh] ∧
      Val.obj stM.fresh ∉ stM.items ∧
      (newMulti stM argsM).selItems = [Val.obj stM.fresh] ∧
      newMulti stM argsM = newMulti stM []) := by
  constructor
  · have hfresh : Val.obj stS.fresh ∉ stS.items := by
      intro hmem
      have := List.all_eq_true.mp hS _ hmem
      simp at this
    have hmem : Val.obj stS.fresh ∈ stS.items ++ [Val.obj stS.fresh] := by simp
    unfold newSingle
    exact ⟨(writeSelectedItem_of_mem _ _ hmem).2, hfresh,
      (writeSelectedItem_of_mem _ _ hmem).1, rfl⟩
  · have hfresh : Val.obj stM.fresh ∉ stM.items := by
      intro hmem
      have := List.all_eq_true.mp hM _ hmem
      simp at this
    have hmem : ∀ x ∈ [Val.obj stM.fresh], x ∈ stM.items ++ [Val.obj stM.fresh] := by
      simp
    unfold newMulti
    exact ⟨writeSelectedItems_items _ _, hfresh,
      writeSelectedItems_eq_self _ _ (by simp) hmem, rfl⟩

/-- C5 witness: `new_appends_fresh_and_selects` applied to the single-mode
array `['x']` at fresh counter 2 and the multiple-mode array `['y']` with
`['y']` selected at fresh counter 5, with arbitrary (ignored) arguments. -/
theorem new_appends_fresh_and_selects_witness :
    ((newSingle ⟨[Val.str "x"], Val.vnull, 2⟩ [Val.str "z"]).items
        = [Val.str "x"] ++ [Val.obj 2] ∧
      Val.obj 2 ∉ [Val.str "x"] ∧
      (newSingle ⟨[Val.str "x"], Val.vnull, 2⟩ [Val.str "z"]).selected = Val.obj 2 ∧
      newSingle ⟨[Val.str "x"], Val.vnull, 2⟩ [Val.str "z"]
        = newSingle ⟨[Val.str "x"], Val.vnull, 2⟩ []) ∧
    ((newMulti ⟨[Val.str "y"], [Val.str "y"], 5⟩ [Val.vnull]).items
        = [Val.str "y"] ++ [Val.obj 5] ∧
      Val.obj 5 ∉ [Val.str "y"] ∧
      (newMulti ⟨[Val.str "y"], [Val.str "y"], 5⟩ [Val.vnull]).selItems = [Val.obj 5] ∧
      newMulti ⟨[Val.str "y"], [Val.str "y"], 5⟩ [Val.vnull]
        = newMulti ⟨[Val.str "y"], [Val.str "y"], 5⟩ []) :=
  new_appends_fresh_and_selects _ _ _ _ (by decide) (by decide)

/-- C6: `selectable('multiple')` defines `selectedItems`/`selectedIndexes`;
`selectable` without `'multiple'` defines `selectedItem`/`selectedIndex`;
passing `'bindingTools'` additionally defines `new`, `clone` and `delete`;
and in every case `selectable` returns the array itself. -/
theorem selectable_defines_attributes (args : List String) (arr : List Val) :
    (selectableSetup args arr).underlying = arr ∧
    ((selectableSetup args arr).iface.hasSelectedItems = true ↔ "multiple" ∈ args) ∧
    ((selectableSetup args arr).iface.hasSelectedIndexes = true ↔ "multiple" ∈ args) ∧
    ((selectableSetup args arr).iface.hasSelectedItem = true ↔ "multiple" ∉ args) ∧
    ((selectableSetup args arr).iface.hasSelectedIndex = true ↔ "multiple" ∉ args) ∧
    ((selectableSetup args arr).iface.hasNew = true ↔ "bindingTools" ∈ args) ∧
    ((selectableSetup args arr).iface.hasClone = true ↔ "bindingTools" ∈ args) ∧
    ((selectableSetup args arr).iface.hasDelete = true ↔ "bindingTools" ∈ args) := by
  have hb : ∀ key : String, buildOptions args key = true ↔ key ∈ args := by
    intro key
    unfold buildOptions
    rw [optionsFoldl_eq]
    simp
  unfold selectableSetup
  refine ⟨rfl, hb "multiple", hb "multiple", ?_, ?_, hb "bindingTools",
    hb "bindingTools", hb "bindingTools"⟩ <;>
    simp [← hb "multiple"]

/-- C7: for every state of the `BetterListModel` view-model, every item in
`selectedItems` is, after `removeSelected`, in neither `allItems` nor the
(now empty) `selectedItems`. -/
theorem removeSelected_removes (m : BetterListModel) (x : String)
    (h : x ∈ m.selectedItems) :
    x ∉ (removeSelected m).allItems ∧
    (removeSelected m).selectedItems = [] ∧
    x ∉ (removeSelected m).selectedItems := by
  refine ⟨?_, rfl, by simp [removeSelected]⟩
  simp [removeSelected, koRemoveAll, h]

/-- C7 witness: `removeSelected_removes` applied to the initial demo state,
whose selection is `["Ham"]`. -/
theorem removeSelected_removes_witness :
    "Ham" ∉ (removeSelected initialModel).allItems ∧
    (removeSelected initialModel).selectedItems = [] ∧
    "Ham" ∉ (removeSelected initialModel).selectedItems :=
  removeSelected_removes initialModel "Ham" (by decide)

/-- C8: writing any list to the multiple-mode `selectedItems` replaces the
selection by exactly the written items that are present in the array,
duplicates dropped, in first-occurrence order of the written list (items not
in the array are silently dropped). -/
theorem writeSelectedItems_filters_and_dedups (st : MultiState) (written : List Val) :
    (writeSelectedItems st written).selItems
      = dedupKeepFirst (written.filter (fun x => decide (x ∈ st.items))) := by
  show written.foldl (selStep st.items) []
    = (written.filter (fun x => decide (x ∈ st.items))).foldl dedupStep []
  exact selStep_foldl_filter st.items written []

/-- C9 counterexample: with the multiple-mode array `['a','b','a']`, writing
`[2]` to `selectedIndexes` — an in-range index whose element list `['a']` is
pairwise distinct — and reading back yields `[0]` (the index of the first
occurrence of `'a'`), not the written `[2]`. -/
theorem selectedIndexes_roundtrip_cex :
    readSelectedIndexes
        (writeSelectedIndexes ⟨[Val.str "a", Val.str "b", Val.str "a"], [], 0⟩ [2])
      = [0] ∧
    readSelectedIndexes
        (writeSelectedIndexes ⟨[Val.str "a", Val.str "b", Val.str "a"], [], 0⟩ [2])
      ≠ [2] := by
  decide

/-- C9 (amended): reading `selectedIndexes` yields the index of the first
occurrence in the array of each selected item in selection order; and
writing `selectedIndexes` with a pairwise-distinct list of in-range indexes,
each of which is the index of the first occurrence of its element, then
reading `selectedIndexes` returns that same list. -/
theorem selectedIndexes_roundtrip (st : MultiState) (idxs : List Int)
    (h1 : ∀ i ∈ idxs, 0 ≤ i ∧ arrayIndexOf st.items (getJS st.items i) = i)
    (h2 : idxs.Nodup) :
    readSelectedIndexes (writeSelectedIndexes st idxs) = idxs := by
  have hmem : ∀ e ∈ idxs.map (fun i => getJS st.items i), e ∈ st.items := by
    intro e he
    obtain ⟨i, hi, rfl⟩ := List.mem_map.mp he
    have h := h1 i hi
    refine (arrayIndexOf_nonneg_iff _ _).mp ?_
    rw [h.2]
    exact h.1
  have hnodup : (idxs.map (fun i => getJS st.items i)).Nodup := by
    refine h2.map_on ?_
    intro i hi j hj hij
    have e1 := (h1 i hi).2
    have e2 := (h1 j hj).2
    rw [← e1, ← e2, hij]
  unfold writeSelectedIndexes readSelectedIndexes
  rw [writeSelectedItems_items,
    writeSelectedItems_eq_self st _ hnodup hmem, List.map_map]
  have : ∀ i ∈ idxs,
      ((fun obj => arrayIndexOf st.items obj) ∘ fun i => getJS st.items i) i = id i := by
    intro i hi
    exact (h1 i hi).2
  rw [List.map_congr_left this, List.map_id]

/-- C9 witness: `selectedIndexes_roundtrip` on the array `['a','b']` with
the written index list `[1, 0]`. -/
theorem selectedIndexes_roundtrip_witness :
    readSelectedIndexes
        (writeSelectedIndexes ⟨[Val.str "a", Val.str "b"], [], 0⟩ [1, 0])
      = [1, 0] :=
  selectedIndexes_roundtrip _ _ (by decide) (by decide)

/-- C10: `addItem` never pushes an empty string and never pushes a value
already present in `allItems` — it either leaves `allItems` unchanged or
appends a non-blank, not-yet-present `itemToAdd`, so `allItems` stays
duplicate-free if it was — and it unconditionally clears `itemToAdd`. -/
theorem addItem_no_blank_no_dup (m : BetterListModel) :
    (addItem m).itemToAdd = "" ∧
    ((addItem m).allItems = m.allItems ∨
      ((addItem m).allItems = m.allItems ++ [m.itemToAdd] ∧
        m.itemToAdd ≠ "" ∧ m.itemToAdd ∉ m.allItems)) ∧
    (m.allItems.Nodup → (addItem m).allItems.Nodup) := by
  unfold addItem
  by_cases hc : m.itemToAdd ≠ "" ∧ arrayIndexOf m.allItems m.itemToAdd < 0
  · have hnm : m.itemToAdd ∉ m.allItems := (arrayIndexOf_neg_iff _ _).mp hc.2
    rw [if_pos hc]
    refine ⟨rfl, Or.inr ⟨rfl, hc.1, hnm⟩, ?_⟩
    intro hnd
    simp [List.nodup_append, hnm, hnd]
  · rw [if_neg hc]
    exact ⟨rfl, Or.inl rfl, fun hnd => hnd⟩

/-- C10 witness: `addItem_no_blank_no_dup` applied to a state with
`itemToAdd = "Spam"` and duplicate-free `allItems = ["Ham"]`; the resulting
`allItems` is duplicate-free. -/
theorem addItem_no_blank_no_dup_witness :
    (addItem { itemToAdd := "Spam", allItems := ["Ham"], selectedItems := [] }).allItems.Nodup :=
  (addItem_no_blank_no_dup
    { itemToAdd := "Spam", allItems := ["Ham"], selectedItems := [] }).2.2 (by decide)
